import Mathlib

/-!
Verification development for the RabbitDashboard operations-analytics suite.

Each Python function relevant to the checked properties is shallowly embedded
as an executable Lean definition: pandas/python floats are modelled as `ℚ`,
python dicts as association lists (first-match lookup for dicts with distinct
keys, last-match lookup where insertion-override matters), CSV tables as
structures of headers and rows, and fallible loaders as `Except`-valued
functions.  Timestamps are modelled as a calendar date (compared
chronologically, i.e. lexicographically on year/month/day) plus an
hour-of-day.
-/

namespace Rabbit

/-! ## Python primitives

Structurally recursive models of the python `str` methods and of stable
sorting, so that every definition evaluates on concrete inputs. -/

namespace Py

/-- Python `str.upper()` (character-wise upper-casing). -/
def pyUpper (s : String) : String := ⟨s.data.map Char.toUpper⟩

/-- Python `str.lower()` (character-wise lower-casing). -/
def pyLower (s : String) : String := ⟨s.data.map Char.toLower⟩

/-- Python `str.strip()`: remove leading and trailing whitespace. -/
def pyStrip (s : String) : String :=
  ⟨((s.data.dropWhile Char.isWhitespace).reverse.dropWhile
      Char.isWhitespace).reverse⟩

/-- Python `str.startswith(pre)`. -/
def pyStartsWith (s pre : String) : Bool := pre.data.isPrefixOf s.data

/-- Substring test on character lists (the python `pat in s` operator):
`pat` is a prefix of some suffix of the text. -/
def containsSub (pat : List Char) : List Char → Bool
  | [] => pat.isEmpty
  | c :: rest => pat.isPrefixOf (c :: rest) || containsSub pat rest

/-- Python `pat in s` on strings. -/
def pyContains (s pat : String) : Bool := containsSub pat.data s.data

/-- Splitting a character list at every occurrence of the character `sep`
(python `str.split(sep)` for a one-character separator: `cur` is the
chunk accumulated so far, in reverse). -/
def splitChar (sep : Char) : List Char → List Char → List (List Char)
  | cur, [] => [cur.reverse]
  | cur, c :: rest =>
      if c == sep then cur.reverse :: splitChar sep [] rest
      else splitChar sep (c :: cur) rest

/-- Python `s.split(",")`. -/
def pySplitComma (s : String) : List String :=
  (splitChar ',' [] s.data).map (fun l => ⟨l⟩)

/-- Stable ascending insertion with respect to the boolean relation `leB`:
the new element goes after every existing element that compares
less-or-equal to it, so existing equal elements keep their places. -/
def insertSorted {α : Type} (leB : α → α → Bool) (x : α) : List α → List α
  | [] => [x]
  | y :: rest =>
      if leB y x then y :: insertSorted leB x rest else x :: y :: rest

/-- Stable sort by repeated insertion, processing the input left to
right. -/
def sortBy {α : Type} (leB : α → α → Bool) (l : List α) : List α :=
  l.foldl (fun acc x => insertSorted leB x acc) []

end Py

/-! ## src/utils/processing.py -/

namespace Processing

/-- Calendar date; chronological order on valid dates is the lexicographic
order on (year, month, day).  This models a pandas Timestamp normalized to
midnight (`ts.normalize()`). -/
structure PDate where
  year : ℕ
  month : ℕ
  day : ℕ
deriving DecidableEq, Repr

/-- Chronological (lexicographic) order on dates, modelling
`Timestamp.normalize() >= Timestamp('2025-04-25').normalize()` comparisons. -/
def PDate.le (a b : PDate) : Prop :=
  a.year < b.year ∨ (a.year = b.year ∧
    (a.month < b.month ∨ (a.month = b.month ∧ a.day ≤ b.day)))

instance : DecidablePred (fun p : PDate × PDate => PDate.le p.1 p.2) := by
  unfold PDate.le; infer_instance

instance (a b : PDate) : Decidable (PDate.le a b) := by
  unfold PDate.le; infer_instance

/-- The fixed cutoff date `pd.Timestamp('2025-04-25')` from
`calculate_interval`. -/
def cutoffDate : PDate := ⟨2025, 4, 25⟩

/-- Embedding of `calculate_interval` (src/utils/processing.py lines 11-18):
given the bucketing timestamp's calendar date `d` and hour-of-day `hour`,
returns `hour + 3` if `hour < 21` else `hour - 21` when `d` is on or after
the 2025-04-25 cutoff, and `hour + 2` if `hour < 22` else `hour - 22`
otherwise. -/
def calculate_interval (d : PDate) (hour : ℕ) : ℤ :=
  if PDate.le cutoffDate d then
    (if hour < 21 then (hour : ℤ) + 3 else (hour : ℤ) - 21)
  else
    (if hour < 22 then (hour : ℤ) + 2 else (hour : ℤ) - 22)

end Processing

/-! ## src/utils/scorecard_utils.py -/

namespace ScorecardUtils

/-- Lookup in a python dict modelled as an association list with distinct
keys: first binding wins (`d.get(k)` / `d.get(k, default)` with `Option`). -/
def dget {α : Type} (d : List (String × α)) (k : String) : Option α :=
  (d.find? (fun p => p.1 == k)).map (fun p => p.2)

/-- Position weight selection from `compute_score_row` /
`compute_task_score`: `weights[idx] if idx < len(weights) else weights[-1]`
(python's `weights[-1]` is the last element; the python code raises
IndexError on an empty weights list, a case excluded by every theorem
below, where this model returns the `getLastD` default 0). -/
def weightAt (weights : List ℚ) (idx : ℕ) : ℚ :=
  if idx < weights.length then weights.getD idx 0 else weights.getLastD 0

/-- The value found in the `Cases` cell of a row: pandas missing value, a
string, a list, or anything else. -/
inductive CasesCell : Type
  | nan : CasesCell
  | strCell : String → CasesCell
  | listCell : List String → CasesCell
  | other : CasesCell

/-- Case-list extraction from a string cell in `compute_score_row`:
`[c.strip() for c in cases_raw.split(",") if c.strip()]`. -/
def splitCases (s : String) : List String :=
  ((Py.pySplitComma s).map Py.pyStrip).filter (fun c => c ≠ "")

/-- Accumulation loop of `compute_score_row`: for each case at position
`idx`, add `w * case_scores.get(m, {}).get(case, 0)` where `w` is the
position weight.  Exact, case-sensitive dict lookup of the case name. -/
def scoreLoop (m : String) (case_scores : List (String × List (String × ℚ)))
    (weights : List ℚ) : List String → ℕ → ℚ
  | [], _ => 0
  | c :: cs, idx =>
      weightAt weights idx * ((dget ((dget case_scores m).getD []) c).getD 0)
      + scoreLoop m case_scores weights cs (idx + 1)

/-- Embedding of `compute_score_row` (src/utils/scorecard_utils.py lines
85-115).  `mobility` is `row["Mobility"]` (defaulted upstream to "MOTO"),
`cases_raw` the `Cases` cell.  NaN cells and non-string non-list cells
return 0; string cells are comma-split; the loop adds
`weight(idx) * case_scores[mobility.upper()].get(case, 0)`. -/
def compute_score_row (mobility : String) (cases_raw : CasesCell)
    (case_scores : List (String × List (String × ℚ)))
    (order_weights : List ℚ) : ℚ :=
  match cases_raw with
  | CasesCell.nan => 0
  | CasesCell.other => 0
  | CasesCell.strCell s =>
      scoreLoop (Py.pyUpper mobility) case_scores order_weights (splitCases s) 0
  | CasesCell.listCell l =>
      scoreLoop (Py.pyUpper mobility) case_scores order_weights l 0

end ScorecardUtils

/-! ## src/Scorecard.py (Area Scorecard Dashboard) -/

namespace ScorecardPage

open ScorecardUtils (dget weightAt)

/-- One moto/tric score pair, the value type of the page's case-score dict
(`{"moto": ..., "tric": ...}`). -/
structure MotoTric where
  moto : ℚ
  tric : ℚ
deriving DecidableEq, Repr

/-- Embedding of `DEFAULT_ORDER_WEIGHTS` (src/Scorecard.py line 18). -/
def DEFAULT_ORDER_WEIGHTS : List ℚ := [1, 3/4, 1/2, 1/4, 1/4, 1/4, 1/4]

/-- Embedding of `DEFAULT_CASE_SCORES` (src/Scorecard.py lines 19-30). -/
def DEFAULT_CASE_SCORES : List (String × MotoTric) :=
  [("Low Battery", ⟨2, 0⟩),
   ("No Ride Photo", ⟨2, 0⟩),
   ("No Rides Today", ⟨2, 0⟩),
   ("Not Updating", ⟨3, 0⟩),
   ("Out Of Fence", ⟨3, 0⟩),
   ("Unlocked Without Ride", ⟨3, 0⟩),
   ("Vehicle Battery Unlocked", ⟨3, 0⟩),
   ("Vehicle Malfunction", ⟨2, 0⟩),
   ("Active", ⟨0, 0⟩),
   ("Deactivate", ⟨0, 0⟩)]

/-- Mobility key selection in `compute_task_score` (lines 134-136):
"tric" when the mobility string, stripped and lower-cased, starts with
"tr", else "moto". -/
def mobilityKey (mobility_type : String) : String :=
  if Py.pyStartsWith (Py.pyLower (Py.pyStrip mobility_type)) "tr" then "tric"
  else "moto"

/-- Projection `lookup.get(mobility_key, 0) or 0` on a moto/tric pair
(the `or 0` turns a falsy 0.0 into 0, the identity on numbers). -/
def MotoTric.getKey (p : MotoTric) (key : String) : ℚ :=
  if key = "tric" then p.tric else if key = "moto" then p.moto else 0

/-- Case lookup of `compute_task_score` (lines 143-148): exact dict lookup
of the stripped case name first, then the first table key equal to it after
stripping and lower-casing both sides. -/
def lookupCase (case_scores : List (String × MotoTric)) (key : String) :
    Option MotoTric :=
  match dget case_scores key with
  | some v => some v
  | none =>
      (case_scores.find? (fun p =>
          Py.pyLower (Py.pyStrip p.1) == Py.pyLower key)).map (fun p => p.2)

/-- Accumulation loop of `compute_task_score` (lines 137-155): blank case
names contribute nothing (but still occupy their enumerate position);
otherwise the contribution is `score_val * weight` for the looked-up
moto/tric score, with an unmatched case name contributing 0. -/
def taskLoop (mkey : String) (case_scores : List (String × MotoTric))
    (order_weights : List ℚ) : List String → ℕ → ℚ
  | [], _ => 0
  | c :: cs, pos =>
      (if Py.pyStrip c = "" then 0
       else
         match lookupCase case_scores (Py.pyStrip c) with
         | none => 0
         | some v => v.getKey mkey * weightAt order_weights pos)
      + taskLoop mkey case_scores order_weights cs (pos + 1)

/-- Embedding of `compute_task_score` (src/Scorecard.py lines 131-156).
The python function returns 0.0 for a non-list argument; the embedding
takes the case list directly. -/
def compute_task_score (case_list : List String) (mobility_type : String)
    (case_scores : List (String × MotoTric)) (order_weights : List ℚ) : ℚ :=
  taskLoop (mobilityKey mobility_type) case_scores order_weights case_list 0

end ScorecardPage

/-! ## Settings loaders (src/utils/scorecard_utils.py, src/Scorecard.py,
src/pages/Settings.py)

A CSV file on disk is modelled as a `ReadResult`: the file may be absent
(`os.path.exists` false), unreadable (`pd.read_csv` raised), or parsed into
a table of headers and (numeric) rows.  `QTable` models a table whose cells
are numeric, which is how the order-weights CSV is consumed. -/

namespace Loaders

open ScorecardPage (MotoTric DEFAULT_ORDER_WEIGHTS DEFAULT_CASE_SCORES)

/-- Result of attempting to read a CSV file of numeric cells. -/
inductive ReadResult (τ : Type) : Type
  | absent : ReadResult τ
  | unreadable : ReadResult τ
  | ok : τ → ReadResult τ

/-- A parsed CSV table with numeric cells: column headers and rows, row
cell `i` belonging to header `i`. -/
structure QTable where
  headers : List String
  rows : List (List ℚ)

/-- Column projection `df[h].tolist()`: the values under header `h`, in row
order (`none` when the header is absent, modelling a KeyError). -/
def QTable.col (t : QTable) (h : String) : Option (List ℚ) :=
  (t.headers.findIdx? (fun c => c == h)).map
    (fun i => t.rows.map (fun r => r.getD i 0))

/-- Default order weights of the utility library
(src/utils/scorecard_utils.py line 28) — six entries, unlike the page's
seven. -/
def defaultWeightsUtils : List ℚ := [1, 3/4, 1/2, 1/4, 1/4, 1/4]

/-- Embedding of `load_weights` (src/utils/scorecard_utils.py lines 20-31).
An absent or unreadable file falls back to the six-entry default; a parsed
table is sorted by its `position` column (`df.sort_values("position")` — a
KeyError if that column is absent, uncaught by `_safe_read_csv`) and its
`weight` column is returned (again a KeyError if absent). -/
def load_weights (r : ReadResult QTable) : Except String (List ℚ) :=
  match r with
  | ReadResult.absent => Except.ok defaultWeightsUtils
  | ReadResult.unreadable => Except.ok defaultWeightsUtils
  | ReadResult.ok t =>
      match t.headers.findIdx? (fun c => c == "position") with
      | none => Except.error "KeyError: position"
      | some i =>
          let sortedRows := Py.sortBy
            (fun a b => decide (a.getD i 0 ≤ b.getD i 0)) t.rows
          match t.headers.findIdx? (fun c => c == "weight") with
          | none => Except.error "KeyError: weight"
          | some j => Except.ok (sortedRows.map (fun r => r.getD j 0))

/-- Embedding of `load_order_weights` (src/Scorecard.py lines 34-43).
Everything after a successful read sits inside a `try` whose handler falls
back to the defaults, so the loader is total: a table with a `weight`
column yields that column in file row order; otherwise the first column is
used; a table with no columns at all makes `df.iloc[:, 0]` raise, which is
caught and yields the defaults. -/
def load_order_weights (r : ReadResult QTable) : List ℚ :=
  match r with
  | ReadResult.absent => DEFAULT_ORDER_WEIGHTS
  | ReadResult.unreadable => DEFAULT_ORDER_WEIGHTS
  | ReadResult.ok t =>
      match t.col "weight" with
      | some ws => ws
      | none =>
          if t.headers.isEmpty then DEFAULT_ORDER_WEIGHTS
          else t.rows.map (fun r => r.getD 0 0)

/-- Embedding of `load_case_scores` (src/utils/scorecard_utils.py lines
37-60).  An absent or unreadable file yields `{"MOTO": {}, "TRIC": {}}` —
empty per-mobility score tables.  A parsed table maps every non-`case`
column `m` (upper-cased) to `dict(zip(df["case"], df[m]))`; `df["case"]`
raises a KeyError when no exact `case` column exists.  The `case` column
holds case names, so this loader is modelled over tables of string-keyed
rows: `ctable` pairs each case name with its per-column numeric cells. -/
def load_case_scores_utils (r : ReadResult (List String × List (String × List ℚ))) :
    Except String (List (String × List (String × ℚ))) :=
  match r with
  | ReadResult.absent => Except.ok [("MOTO", []), ("TRIC", [])]
  | ReadResult.unreadable => Except.ok [("MOTO", []), ("TRIC", [])]
  | ReadResult.ok t =>
      let headers := t.1
      let rows := t.2
      if headers.contains "case" then
        let mobilityTypes :=
          (headers.enum.filter (fun p => Py.pyLower p.2 ≠ "case"))
        Except.ok (mobilityTypes.map (fun p =>
          (Py.pyUpper p.2, rows.map (fun row => (row.1, row.2.getD p.1 0)))))
      else Except.error "KeyError: case"

/-- One raw row of the case-scores CSV as consumed by the page's
`load_case_scores` (src/Scorecard.py lines 46-70): `r.get("case")` etc.
return `none` when the column is absent. -/
structure CaseScoreRow where
  case : Option String
  caseCap : Option String
  caseUpper : Option String
  moto : Option ℚ
  motoUpper : Option ℚ
  tric : Option ℚ
  tricUpper : Option ℚ

/-- Case-name extraction `str(r.get("case") or r.get("Case") or
r.get("CASE") or "").strip()` for one row. -/
def CaseScoreRow.name (r : CaseScoreRow) : String :=
  (((r.case.filter (fun s => s ≠ "")).orElse
      (fun _ => r.caseCap.filter (fun s => s ≠ ""))).orElse
      (fun _ => r.caseUpper.filter (fun s => s ≠ ""))).getD "" |> Py.pyStrip

/-- Score extraction `r.get("moto", r.get("MOTO", 0))` (and the tric
analogue); the subsequent `float(...)`-with-fallback is the identity on the
numeric cells modelled here. -/
def CaseScoreRow.motoVal (r : CaseScoreRow) : ℚ :=
  (r.moto.orElse (fun _ => r.motoUpper)).getD 0

/-- Tric analogue of `CaseScoreRow.motoVal`. -/
def CaseScoreRow.tricVal (r : CaseScoreRow) : ℚ :=
  (r.tric.orElse (fun _ => r.tricUpper)).getD 0

/-- Row loop of the page's `load_case_scores`: rows with an empty extracted
case name are skipped, every other row binds its name to its moto/tric
pair (later rows overwrite earlier dict entries; the model keeps the later
binding by appending and letting lookups take the last match — for the
absent-file claim settled here only the fallback branch matters). -/
def caseRowsToDict : List CaseScoreRow → List (String × MotoTric)
  | [] => []
  | r :: rest =>
      if r.name = "" then caseRowsToDict rest
      else (r.name, ⟨r.motoVal, r.tricVal⟩) :: caseRowsToDict rest

/-- Embedding of the page's `load_case_scores` (src/Scorecard.py lines
46-70): an absent or unreadable file — or a readable file whose rows
produce an empty dict — yields the 10-entry `DEFAULT_CASE_SCORES`. -/
def load_case_scores_page (r : ReadResult (List CaseScoreRow)) :
    List (String × MotoTric) :=
  match r with
  | ReadResult.absent => DEFAULT_CASE_SCORES
  | ReadResult.unreadable => DEFAULT_CASE_SCORES
  | ReadResult.ok rows =>
      let d := caseRowsToDict rows
      if d.isEmpty then DEFAULT_CASE_SCORES else d

/-- Embedding of the settings page's `load_case_scores`
(src/pages/Settings.py lines 48-57): returns the parsed dataframe when the
file is present and readable, else a dataframe of the default rows
`[case, moto, tric]` built from `DEFAULT_CASE_SCORES` in order. -/
def load_case_scores_settings (r : ReadResult (List (String × ℚ × ℚ))) :
    List (String × ℚ × ℚ) :=
  match r with
  | ReadResult.ok rows => rows
  | _ => DEFAULT_CASE_SCORES.map (fun p => (p.1, p.2.moto, p.2.tric))

end Loaders

/-! ## Mobility resolution (src/Scorecard.py lines 73-84 and 304-317) -/

namespace Mobility

/-- A parsed CSV table of string cells (the mobility.csv shape). -/
structure STable where
  headers : List String
  rows : List (List String)

/-- Embedding of `load_mobility_map` (src/Scorecard.py lines 73-84): absent
or unreadable file, or a readable file lacking (case-insensitively) `name`
and `mobility` headers, yields the empty default map; otherwise the rows
pair the first `name`-headed column with the first `mobility`-headed
column, in file order (`DataFrame.set_index(...).to_dict()` lets a later
duplicate name override an earlier one, so lookups below take the last
matching binding). -/
def load_mobility_map (r : Loaders.ReadResult STable) :
    List (String × String) :=
  match r with
  | Loaders.ReadResult.absent => []
  | Loaders.ReadResult.unreadable => []
  | Loaders.ReadResult.ok t =>
      match t.headers.findIdx? (fun c => Py.pyLower c == "name"),
            t.headers.findIdx? (fun c => Py.pyLower c == "mobility") with
      | some i, some j =>
          t.rows.map (fun row => (row.getD i "", row.getD j ""))
      | _, _ => []

/-- Python-dict lookup where later insertions of the same key override
earlier ones: the last matching binding wins. -/
def dictGetLast (d : List (String × String)) (k : String) : Option String :=
  (d.reverse.find? (fun p => p.1 == k)).map (fun p => p.2)

/-- The raw vehicle-text heuristic of `resolve_mobility_for_row` (lines
311-316): "TRIC" when the upper-cased raw text contains "TRIC" or "TRI",
"MOTO" when it contains "MOTO"/"MOT"/"BIKE", and "MOTO" by default. -/
def resolveFromRaw (raw_val : String) : String :=
  let v := Py.pyUpper raw_val
  if Py.pyContains v "TRIC" || Py.pyContains v "TRI" then "TRIC"
  else if Py.pyContains v "MOTO" || Py.pyContains v "MOT" ||
      Py.pyContains v "BIKE" then "MOTO"
  else "MOTO"

/-- Embedding of `resolve_mobility_for_row` (src/Scorecard.py lines
304-316): an exact, case-sensitive lookup of the cleaned agent name in the
mobility map; a truthy (non-empty) entry classifies by its stripped
upper-cased text, otherwise the raw vehicle-text heuristic decides. -/
def resolve_mobility_for_row (mobility_map : List (String × String))
    (agent_name raw_val : String) : String :=
  match dictGetLast mobility_map agent_name with
  | some m =>
      if m = "" then resolveFromRaw raw_val
      else
        let mm := Py.pyUpper (Py.pyStrip m)
        if Py.pyContains mm "TRIC" || Py.pyStartsWith mm "TR" then "TRIC"
        else "MOTO"
  | none => resolveFromRaw raw_val

end Mobility

/-! ## src/pages/01_HeatData.py — per-cell metrics (lines 184-223) -/

namespace HeatData

/-- One (neighborhood, time-bucket) cell after the groupby aggregation of
`calculate_metrics`: summed Sessions / Active Vehicles / Urgent Vehicles /
Rides and the distinct-timestamp count `Snapshots`. -/
structure AggCell where
  sessions : ℚ
  activeVehicles : ℚ
  urgentVehicles : ℚ
  rides : ℚ
  snapshots : ℕ

/-- Neighborhood Fulfillment Rate (lines 200-204):
`np.where(Sessions > 0, Rides / Sessions, 0)`. -/
def fulfillmentRate (c : AggCell) : ℚ :=
  if 0 < c.sessions then c.rides / c.sessions else 0

/-- Missed Opportunity (line 205): `Sessions - Rides`. -/
def missedOpportunity (c : AggCell) : ℚ := c.sessions - c.rides

/-- Active (Avg) (lines 206-210):
`np.where(Snapshots > 0, Active Vehicles / Snapshots, 0)`. -/
def activeAvg (c : AggCell) : ℚ :=
  if 0 < c.snapshots then c.activeVehicles / (c.snapshots : ℚ) else 0

/-- Urgent (Avg) (lines 211-215). -/
def urgentAvg (c : AggCell) : ℚ :=
  if 0 < c.snapshots then c.urgentVehicles / (c.snapshots : ℚ) else 0

/-- Utilization (lines 216-221): `np.where(Active (Avg) > 0,
Rides / Active (Avg), 0)` followed by `.replace([np.nan, np.inf], 0)`
(the replace is the identity in the exact-arithmetic model, where no
guarded division can produce a non-finite value). -/
def utilization (c : AggCell) : ℚ :=
  if 0 < activeAvg c then c.rides / activeAvg c else 0

end HeatData

/-! ## src/pages/01_HeatData.py — Smart Vehicle Allocation, steps 7-8
(lines 1370-1380) -/

namespace Allocation

/-- Step 7 (lines 1371-1374): `np.floor(score / total_score *
total_fleet_size).astype(int)` per neighborhood, where `total_score` is
the sum of all allocation scores. -/
def allocationFloors (scores : List ℚ) (F : ℕ) : List ℤ :=
  scores.map (fun s => ⌊s / scores.sum * (F : ℚ)⌋)

/-- The row indices picked by `nlargest(remaining, "Allocation_Score")`
(line 1379): all indices stably sorted by descending score, truncated to
the first `r` (pandas `nlargest` keeps the first occurrence on ties,
matching the stability of `mergeSort`). -/
def topIndices (scores : List ℚ) (r : ℕ) : List ℕ :=
  (Py.sortBy (fun i j => decide (scores.getD j 0 ≤ scores.getD i 0))
    (List.range scores.length)).take r

/-- `period_data.loc[top_indices, "Recommended_Vehicles"] += 1` (line
1380): add one to every count whose position is listed in `tops`; `i` is
the position of the first remaining count. -/
def bumpFrom : List ℤ → ℕ → List ℕ → List ℤ
  | [], _, _ => []
  | c :: cs, i, tops =>
      (if tops.contains i then c + 1 else c) :: bumpFrom cs (i + 1) tops

/-- Steps 7-8 combined (lines 1370-1380): floor-proportional counts, then
the flooring remainder `total_fleet_size - sum` distributed one vehicle at
a time to the highest-scoring neighborhoods. -/
def recommendedVehicles (scores : List ℚ) (F : ℕ) : List ℤ :=
  let floors := allocationFloors scores F
  let remaining : ℤ := (F : ℤ) - floors.sum
  if 0 < remaining then bumpFrom floors 0 (topIndices scores remaining.toNat)
  else floors

end Allocation

/-! ## src/pages/Attendance.py — check-in difference (lines 207-220) -/

namespace Attendance

/-- Embedding of `calculate_check_in_diff` (src/pages/Attendance.py lines
209-218): a nonnegative check-in difference (early arrival) contributes 0;
lateness within the 15-minute grace period contributes 0; otherwise the
full lateness in minutes is returned. -/
def calculate_check_in_diff (hours_diff : ℚ) : ℚ :=
  if 0 ≤ hours_diff then 0
  else
    let minutes_late := |hours_diff| * 60
    if minutes_late ≤ 15 then 0 else minutes_late

end Attendance

/-! ## General lemmas -/

/-- Inserting into a list is a permutation of consing. -/
theorem Py.insertSorted_perm {α : Type} (leB : α → α → Bool) (x : α) :
    ∀ l : List α, (Py.insertSorted leB x l).Perm (x :: l)
  | [] => List.Perm.refl _
  | y :: rest => by
      rw [Py.insertSorted]
      by_cases h : leB y x
      · rw [if_pos h]
        exact ((Py.insertSorted_perm leB x rest).cons y).trans
          (List.Perm.swap x y rest)
      · rw [if_neg h]

/-- The insertion fold underlying `Py.sortBy` permutes its accumulator
followed by its input. -/
theorem Py.foldl_insertSorted_perm {α : Type} (leB : α → α → Bool) :
    ∀ (l acc : List α),
      (l.foldl (fun acc x => Py.insertSorted leB x acc) acc).Perm (acc ++ l)
  | [], acc => by simp
  | x :: rest, acc => by
      rw [List.foldl_cons]
      refine (Py.foldl_insertSorted_perm leB rest
        (Py.insertSorted leB x acc)).trans ?_
      refine ((Py.insertSorted_perm leB x acc).append_right rest).trans ?_
      exact List.perm_middle.symm

/-- `Py.sortBy` is a permutation of its input. -/
theorem Py.sortBy_perm {α : Type} (leB : α → α → Bool) (l : List α) :
    (Py.sortBy leB l).Perm l := by
  have h := Py.foldl_insertSorted_perm leB l []
  rw [List.nil_append] at h
  exact h

/-- Sum of a list after multiplying every element by a constant. -/
theorem sum_map_mul_const (l : List ℚ) (c : ℚ) :
    (l.map (fun s => s * c)).sum = l.sum * c := by
  induction l with
  | nil => simp
  | cons x xs ih => simp [ih, add_mul]

/-- Summing the floors of a list of rationals stays below the sum. -/
theorem sum_floor_le (l : List ℚ) :
    (l.map (fun x => ((⌊x⌋ : ℤ) : ℚ))).sum ≤ l.sum := by
  induction l with
  | nil => simp
  | cons x xs ih =>
      simp only [List.map_cons, List.sum_cons]
      exact add_le_add (Int.floor_le x) ih

/-- Summing the floors of a nonempty list of rationals loses strictly
less than one per element. -/
theorem sum_floor_gt :
    ∀ l : List ℚ, l ≠ [] →
      l.sum - l.length < (l.map (fun x => ((⌊x⌋ : ℤ) : ℚ))).sum
  | [], h => absurd rfl h
  | [x], _ => by
      simp only [List.map_cons, List.map_nil, List.sum_cons, List.sum_nil,
        List.length_cons, List.length_nil, add_zero]
      push_cast
      exact lt_of_lt_of_le (Int.sub_one_lt_floor x) (by norm_num)
  | x :: y :: rest, _ => by
      have ih := sum_floor_gt (y :: rest) (List.cons_ne_nil _ _)
      simp only [List.map_cons, List.sum_cons, List.length_cons] at ih ⊢
      push_cast at ih ⊢
      have hx := Int.sub_one_lt_floor x
      linarith

/-- Summing after `Allocation.bumpFrom`: each increment lands on one
position of the count list, so the sum grows by the number of listed
positions that fall inside the index range. -/
theorem Allocation.bumpFrom_sum (tops : List ℕ) :
    ∀ (cs : List ℤ) (i : ℕ),
      (Allocation.bumpFrom cs i tops).sum =
        cs.sum +
          (((List.range' i cs.length).countP
            (fun j => tops.contains j) : ℕ) : ℤ)
  | [], i => by simp [Allocation.bumpFrom]
  | c :: cs, i => by
      rw [Allocation.bumpFrom]
      simp only [List.sum_cons, List.length_cons, List.range'_succ,
        List.countP_cons]
      rw [Allocation.bumpFrom_sum tops cs (i + 1)]
      by_cases h : i ∈ tops <;>
        simp [List.contains, List.elem_eq_mem, h] <;> omega

/-- Counting the members of a duplicate-free list inside an index range
that covers all of them yields its length. -/
theorem countP_contains_range' (i n : ℕ) (tops : List ℕ)
    (hnd : tops.Nodup) (hmem : ∀ j ∈ tops, i ≤ j ∧ j < i + n) :
    (List.range' i n).countP (fun j => tops.contains j) = tops.length := by
  rw [List.countP_eq_length_filter]
  have hperm : ((List.range' i n).filter
      (fun j => tops.contains j)).Perm tops := by
    rw [List.perm_ext_iff_of_nodup
      (List.Nodup.filter _ (List.nodup_range' i n)) hnd]
    intro a
    simp only [List.mem_filter, List.mem_range'_1, List.contains,
      List.elem_eq_mem, decide_eq_true_eq]
    constructor
    · exact fun h => h.2
    · exact fun h => ⟨hmem a h, h⟩
  exact hperm.length_eq

/-! ## Theorems -/

open Processing ScorecardUtils ScorecardPage Loaders Mobility HeatData
  Allocation Attendance

/-- C2: for every non-missing bucketing timestamp, `calculate_interval`
returns `hour + 3` when `hour < 21` and `hour - 21` otherwise if the
timestamp's calendar date (normalized to midnight) is on or after the fixed
cutoff 2025-04-25, and returns `hour + 2` when `hour < 22` and `hour - 22`
otherwise if the date is before the cutoff; hour 20 on 2025-04-24 yields
22, hour 20 on 2025-04-25 yields 23, and hour 22 on 2025-04-25 yields 1. -/
theorem C2_interval_cutoff_rule (d : PDate) (hour : ℕ) :
    (PDate.le cutoffDate d →
      calculate_interval d hour =
        if hour < 21 then (hour : ℤ) + 3 else (hour : ℤ) - 21) ∧
    (¬ PDate.le cutoffDate d →
      calculate_interval d hour =
        if hour < 22 then (hour : ℤ) + 2 else (hour : ℤ) - 22) ∧
    calculate_interval ⟨2025, 4, 24⟩ 20 = 22 ∧
    calculate_interval ⟨2025, 4, 25⟩ 20 = 23 ∧
    calculate_interval ⟨2025, 4, 25⟩ 22 = 1 := by
  refine ⟨fun h => ?_, fun h => ?_, by decide, by decide, by decide⟩ <;>
    simp [calculate_interval, h]

/-- C2 witness: the cutoff rule applied at hour 22 on 2025-04-25. -/
theorem C2_interval_cutoff_rule_witness :
    calculate_interval ⟨2025, 4, 25⟩ 22 =
      if 22 < 21 then (22 : ℤ) + 3 else (22 : ℤ) - 21 :=
  (C2_interval_cutoff_rule ⟨2025, 4, 25⟩ 22).1 (by decide)

/-- C9: for every non-missing timestamp, `calculate_interval` returns an
integer in 0..23, and on each side of the 2025-04-25 cutoff the mapping
from hour-of-day (0-23) to interval is a bijection on that range. -/
theorem C9_interval_bijection (d : PDate) :
    (∀ hour, hour < 24 →
      0 ≤ calculate_interval d hour ∧ calculate_interval d hour ≤ 23) ∧
    (∀ h1 h2, h1 < 24 → h2 < 24 →
      calculate_interval d h1 = calculate_interval d h2 → h1 = h2) ∧
    (∀ y : ℕ, y < 24 →
      ∃ hour, hour < 24 ∧ calculate_interval d hour = (y : ℤ)) := by
  unfold calculate_interval
  by_cases hc : PDate.le cutoffDate d
  · simp only [hc, if_true, ite_true]
    refine ⟨fun hour hlt => ?_, fun h1 h2 hl1 hl2 heq => ?_, fun y hy => ?_⟩
    · by_cases h21 : hour < 21 <;>
        simp only [h21, ite_true, ite_false] <;> omega
    · by_cases ha : h1 < 21 <;> by_cases hb : h2 < 21 <;>
        simp only [ha, hb, ite_true, ite_false] at heq <;> omega
    · by_cases h3 : 3 ≤ y
      · refine ⟨y - 3, by omega, ?_⟩
        rw [if_pos (show y - 3 < 21 by omega)]; omega
      · refine ⟨y + 21, by omega, ?_⟩
        rw [if_neg (show ¬ y + 21 < 21 by omega)]; omega
  · simp only [hc, if_false, ite_false]
    refine ⟨fun hour hlt => ?_, fun h1 h2 hl1 hl2 heq => ?_, fun y hy => ?_⟩
    · by_cases h22 : hour < 22 <;>
        simp only [h22, ite_true, ite_false] <;> omega
    · by_cases ha : h1 < 22 <;> by_cases hb : h2 < 22 <;>
        simp only [ha, hb, ite_true, ite_false] at heq <;> omega
    · by_cases h2 : 2 ≤ y
      · refine ⟨y - 2, by omega, ?_⟩
        rw [if_pos (show y - 2 < 22 by omega)]; omega
      · refine ⟨y + 22, by omega, ?_⟩
        rw [if_neg (show ¬ y + 22 < 22 by omega)]; omega

/-- C9 witness: the bijection facts applied on the cutoff date at hour 5
and at target interval 0. -/
theorem C9_interval_bijection_witness :
    (0 ≤ calculate_interval ⟨2025, 4, 25⟩ 5 ∧
      calculate_interval ⟨2025, 4, 25⟩ 5 ≤ 23) ∧
    (∃ hour, hour < 24 ∧ calculate_interval ⟨2025, 4, 25⟩ hour = (0 : ℤ)) :=
  ⟨(C9_interval_bijection ⟨2025, 4, 25⟩).1 5 (by decide),
   (C9_interval_bijection ⟨2025, 4, 25⟩).2.2 0 (by decide)⟩

/-- C5: the derived check-in difference in minutes is 0 when the raw
Check-in Difference Hours value is nonnegative (early arrival) or the
lateness is at most 15 minutes (grace period), and otherwise equals the
full lateness in minutes; -0.2 hours yields 0, -0.3 hours yields 18, and
+0.1 hours yields 0. -/
theorem C5_check_in_grace_period (h : ℚ) :
    (0 ≤ h → calculate_check_in_diff h = 0) ∧
    (h < 0 → |h| * 60 ≤ 15 → calculate_check_in_diff h = 0) ∧
    (h < 0 → 15 < |h| * 60 → calculate_check_in_diff h = |h| * 60) ∧
    calculate_check_in_diff (-1/5) = 0 ∧
    calculate_check_in_diff (-3/10) = 18 ∧
    calculate_check_in_diff (1/10) = 0 := by
  refine ⟨fun h0 => ?_, fun h0 hg => ?_, fun h0 hg => ?_,
    by norm_num [calculate_check_in_diff, abs_of_nonneg],
    by norm_num [calculate_check_in_diff, abs_of_nonneg],
    by norm_num [calculate_check_in_diff]⟩
  · simp [calculate_check_in_diff, h0]
  · simp [calculate_check_in_diff, not_le.mpr h0, hg]
  · simp [calculate_check_in_diff, not_le.mpr h0, not_le.mpr hg]

/-- C5 witness: the lateness branch applied at -0.3 hours. -/
theorem C5_check_in_grace_period_witness :
    calculate_check_in_diff (-3/10) = |(-3/10 : ℚ)| * 60 :=
  (C5_check_in_grace_period (-3/10)).2.2.1 (by norm_num)
    (by rw [abs_of_neg (show (-3/10 : ℚ) < 0 by norm_num)]; norm_num)

/-- C4: in the per-(neighborhood, time-bucket) aggregation of
`calculate_metrics`, a cell with summed Sessions 0 gets Fulfillment Rate 0,
Active (Avg) is 0 when Snapshots is 0, and Utilization is 0 whenever
Active (Avg) is 0 — every division is guarded, so in the exact-arithmetic
model (where the trailing `replace([nan, inf], 0)` is the identity) no
metric is ever non-finite. -/
theorem C4_metrics_zero_guards (c : AggCell) :
    (c.sessions = 0 → fulfillmentRate c = 0) ∧
    (c.snapshots = 0 → activeAvg c = 0 ∧ urgentAvg c = 0) ∧
    (activeAvg c = 0 → utilization c = 0) ∧
    fulfillmentRate ⟨0, 3, 1, 0, 5⟩ = 0 ∧
    activeAvg ⟨10, 0, 0, 7, 5⟩ = 0 ∧
    utilization ⟨10, 0, 0, 7, 5⟩ = 0 := by
  refine ⟨fun h => ?_, fun h => ?_, fun h => ?_,
    by norm_num [fulfillmentRate],
    by norm_num [activeAvg],
    by norm_num [utilization, activeAvg]⟩
  · simp [fulfillmentRate, h]
  · simp [activeAvg, urgentAvg, h]
  · simp [utilization, h]

/-- C4 witness: the Sessions and Active (Avg) guards applied to the
concrete cells of the spec's example. -/
theorem C4_metrics_zero_guards_witness :
    fulfillmentRate ⟨0, 3, 1, 0, 5⟩ = 0 ∧
    utilization ⟨10, 0, 0, 7, 5⟩ = 0 :=
  ⟨(C4_metrics_zero_guards ⟨0, 3, 1, 0, 5⟩).1 rfl,
   (C4_metrics_zero_guards ⟨10, 0, 0, 7, 5⟩).2.2.1
     (by norm_num [activeAvg])⟩

/-- C1: both per-record score computations select the final weight
`weights[k-1]` for every position at or beyond the weight-list length `k`,
and with weights [1.0, 0.75, 0.5] and four cases each scoring 2 both
return 5.5. -/
theorem C1_order_weight_last_reuse (weights : List ℚ) (hw : weights ≠ [])
    (i : ℕ) (hi : weights.length ≤ i) :
    weightAt weights i = weights.getLast hw ∧
    compute_score_row "MOTO" (CasesCell.listCell ["A", "B", "C", "D"])
      [("MOTO", [("A", 2), ("B", 2), ("C", 2), ("D", 2)])]
      [1, 3/4, 1/2] = 11/2 ∧
    compute_task_score ["A", "B", "C", "D"] "MOTO"
      [("A", ⟨2, 0⟩), ("B", ⟨2, 0⟩), ("C", ⟨2, 0⟩), ("D", ⟨2, 0⟩)]
      [1, 3/4, 1/2] = 11/2 := by
  refine ⟨?_, ?_, ?_⟩
  · rw [weightAt, if_neg (not_lt.mpr hi), List.getLastD_eq_getLast?,
      List.getLast?_eq_getLast weights hw, Option.getD_some]
  · simp [compute_score_row, scoreLoop, dget, weightAt, Py.pyUpper]
    norm_num
  · simp [compute_task_score, taskLoop, lookupCase, mobilityKey,
      MotoTric.getKey, dget, weightAt, Py.pyUpper, Py.pyLower, Py.pyStrip,
      Py.pyStartsWith]
    norm_num

/-- C1 witness: position 3 against the three-element weight list reuses
the final weight 0.5, and the two 5.5 examples. -/
theorem C1_order_weight_last_reuse_witness :
    weightAt [1, 3/4, 1/2] 3 =
      List.getLast [1, 3/4, 1/2] (List.cons_ne_nil 1 [3/4, 1/2]) ∧
    compute_score_row "MOTO" (CasesCell.listCell ["A", "B", "C", "D"])
      [("MOTO", [("A", 2), ("B", 2), ("C", 2), ("D", 2)])]
      [1, 3/4, 1/2] = 11/2 :=
  ⟨(C1_order_weight_last_reuse [1, 3/4, 1/2]
      (List.cons_ne_nil 1 [3/4, 1/2]) 3 (by simp)).1,
   (C1_order_weight_last_reuse [1, 3/4, 1/2]
      (List.cons_ne_nil 1 [3/4, 1/2]) 3 (by simp)).2.1⟩

/-- C8 counterexample: `compute_score_row` performs only an exact,
case-sensitive lookup — a case name matching a score-table key in
everything but letter case contributes 0, while the dashboard's
`compute_task_score` falls back to the case-insensitive match and scores
it 2. -/
theorem C8_counterexample_no_ci_fallback :
    compute_score_row "MOTO" (CasesCell.listCell ["Low Battery"])
      [("MOTO", [("low battery", 2)])] [1] = 0 ∧
    compute_task_score ["Low Battery"] "MOTO"
      [("low battery", ⟨2, 0⟩)] [1] = 2 := by
  constructor
  · simp [compute_score_row, scoreLoop, dget, weightAt, Py.pyUpper]
  · simp [compute_task_score, taskLoop, lookupCase, mobilityKey,
      MotoTric.getKey, dget, weightAt, Py.pyUpper, Py.pyLower, Py.pyStrip,
      Py.pyStartsWith]

/-- C8 (amended): `compute_task_score` looks a case name up by exact key
first and falls back to the first case-insensitive match, contributing 0
only when neither exists; `compute_score_row` contributes 0 for every case
name without an exact, case-sensitive match. -/
theorem C8_case_lookup_fallback (c m : String)
    (cs : List (String × MotoTric)) (w0 : ℚ)
    (hblank : Py.pyStrip c ≠ "")
    (hexact : dget cs (Py.pyStrip c) = none) :
    compute_task_score [c] m cs [w0] =
      (match cs.find? (fun p =>
          Py.pyLower (Py.pyStrip p.1) == Py.pyLower (Py.pyStrip c)) with
       | some p => p.2.getKey (mobilityKey m) * w0
       | none => 0) ∧
    (∀ (cs2 : List (String × List (String × ℚ))),
      dget ((dget cs2 (Py.pyUpper m)).getD []) c = none →
      compute_score_row m (CasesCell.listCell [c]) cs2 [w0] = 0) := by
  constructor
  · rw [compute_task_score]
    simp only [taskLoop, hblank, if_neg, ite_false, add_zero]
    rw [lookupCase, hexact]
    cases hf : cs.find? (fun p =>
        Py.pyLower (Py.pyStrip p.1) == Py.pyLower (Py.pyStrip c)) with
    | none => simp [hf]
    | some p => simp [hf, weightAt]
  · intro cs2 hnone
    rw [compute_score_row]
    simp [scoreLoop, hnone]

/-- C8 witness: the fallback applied to "Low Battery" against a table
keyed "low battery". -/
theorem C8_case_lookup_fallback_witness :
    compute_task_score ["Low Battery"] "MOTO"
      [("low battery", ⟨3, 0⟩)] [1] = 3 := by
  have h := (C8_case_lookup_fallback "Low Battery" "MOTO"
    [("low battery", ⟨3, 0⟩)] 1 (by decide)
    (by simp [dget, Py.pyStrip])).1
  rw [h]
  simp [Py.pyLower, Py.pyStrip, MotoTric.getKey, mobilityKey,
    Py.pyStartsWith]

/-- C10: the mobility-settings lookup in the Area Scorecard Dashboard is
an exact, case-sensitive match on the cleaned agent name — an agent name
differing from a mobility.csv entry only in letter case is not looked up
and the row's mobility is resolved by the raw vehicle-text heuristic,
which defaults to MOTO when the raw text has no "TRIC"/"TRI" marker. -/
theorem C10_mobility_lookup_case_sensitive
    (mmap : List (String × String)) (n m a raw : String)
    (hmem : (n, m) ∈ mmap) (hcase : Py.pyLower a = Py.pyLower n)
    (hne : a ≠ n) (hnolookup : dictGetLast mmap a = none)
    (htric : Py.pyContains (Py.pyUpper raw) "TRIC" = false)
    (htri : Py.pyContains (Py.pyUpper raw) "TRI" = false) :
    resolve_mobility_for_row mmap a raw = resolveFromRaw raw ∧
    resolve_mobility_for_row mmap a raw = "MOTO" := by
  have hres : resolve_mobility_for_row mmap a raw = resolveFromRaw raw := by
    rw [resolve_mobility_for_row, hnolookup]
  refine ⟨hres, ?_⟩
  rw [hres, resolveFromRaw]
  simp [htric, htri]

/-- C10 witness: agent "John" with settings entry for "john" falls through
to the heuristic and defaults to MOTO. -/
theorem C10_mobility_lookup_case_sensitive_witness :
    resolve_mobility_for_row [("john", "TRIC")] "John" "" = "MOTO" :=
  (C10_mobility_lookup_case_sensitive [("john", "TRIC")] "john" "TRIC"
    "John" "" (by simp) (by decide) (by decide) (by decide) (by decide)
    (by decide)).2

/-- C6 counterexample: a readable order-weights CSV with a `weight` column
but no `position` column makes the utility library's `load_weights` raise
a KeyError (`df.sort_values("position")`), contradicting the claim that
every settings loader succeeds on such a file and never raises; the
dashboard's `load_order_weights` does succeed on the same table, in file
row order. -/
theorem C6_counterexample_position_keyerror :
    load_weights (ReadResult.ok ⟨["weight"], [[2], [3]]⟩) =
      Except.error "KeyError: position" ∧
    load_order_weights (ReadResult.ok ⟨["weight"], [[2], [3]]⟩) = [2, 3] := by
  constructor
  · simp [load_weights, List.findIdx?]
  · simp [load_order_weights, QTable.col, List.findIdx?]

/-- C6 (amended): the dashboard's `load_order_weights` is total and
accepts a `weight` column whether or not a `position` column is present
(always in file row order), and both loaders fall back to their defaults
when the file is absent or unreadable; but the utility library's
`load_weights` raises a KeyError on every readable table that lacks a
`position` column, so it is not resilient in that case. -/
theorem C6_weight_loader_resilience (t : QTable)
    (hw : "weight" ∈ t.headers) (hp : "position" ∉ t.headers) :
    load_order_weights (ReadResult.ok t) = (t.col "weight").getD [] ∧
    (t.col "weight").isSome = true ∧
    load_weights (ReadResult.ok t) = Except.error "KeyError: position" ∧
    load_weights ReadResult.absent = Except.ok defaultWeightsUtils ∧
    load_weights ReadResult.unreadable = Except.ok defaultWeightsUtils ∧
    load_order_weights ReadResult.absent = DEFAULT_ORDER_WEIGHTS ∧
    load_order_weights ReadResult.unreadable = DEFAULT_ORDER_WEIGHTS := by
  have hidx : t.headers.findIdx? (fun c => c == "weight") =
      some (t.headers.findIdx (fun c => c == "weight")) :=
    List.findIdx?_eq_some_of_exists ⟨"weight", hw, by simp⟩
  have hcol : t.col "weight" =
      some (t.rows.map (fun r =>
        r.getD (t.headers.findIdx (fun c => c == "weight")) 0)) := by
    rw [QTable.col, hidx]; rfl
  have hpidx : t.headers.findIdx? (fun c => c == "position") = none := by
    rw [List.findIdx?_eq_none_iff]
    intro x hx
    by_cases hxp : x = "position"
    · exact absurd (hxp ▸ hx) hp
    · simp [hxp]
  refine ⟨?_, ?_, ?_, rfl, rfl, rfl, rfl⟩
  · rw [load_order_weights, hcol]; rfl
  · rw [hcol]; rfl
  · rw [load_weights, hpidx]

/-- C6 witness: the amended statement applied to a concrete one-column
table. -/
theorem C6_weight_loader_resilience_witness :
    load_order_weights (ReadResult.ok ⟨["weight"], [[5], [7]]⟩) =
      ((QTable.mk ["weight"] [[5], [7]]).col "weight").getD [] ∧
    load_weights (ReadResult.ok ⟨["weight"], [[5], [7]]⟩) =
      Except.error "KeyError: position" :=
  ⟨(C6_weight_loader_resilience ⟨["weight"], [[5], [7]]⟩
      (by simp) (by simp)).1,
   (C6_weight_loader_resilience ⟨["weight"], [[5], [7]]⟩
      (by simp) (by simp)).2.2.1⟩

/-- C7 counterexample: with the case-scores file absent, the utility
library's `load_case_scores` returns `{"MOTO": {}, "TRIC": {}}` — the
per-mobility score tables are empty (e.g. "MOTO" maps to the empty
table), not the 10-entry default table the claim asserts. -/
theorem C7_counterexample_utils_empty_default :
    load_case_scores_utils (Loaders.ReadResult.absent) =
      Except.ok [("MOTO", []), ("TRIC", [])] ∧
    dget [("MOTO", ([] : List (String × ℚ))), ("TRIC", [])] "MOTO" =
      some [] := by
  exact ⟨rfl, rfl⟩

/-- C7 (amended): when the case-scores settings file is absent, the
dashboard's and the settings page's `load_case_scores` return the 10-entry
default table (Low Battery 2/0, No Ride Photo 2/0, No Rides Today 2/0,
Not Updating 3/0, Out Of Fence 3/0, Unlocked Without Ride 3/0, Vehicle
Battery Unlocked 3/0, Vehicle Malfunction 2/0, Active 0/0, Deactivate
0/0); the utility library's variant instead returns empty per-mobility
maps. -/
theorem C7_case_scores_absent_defaults :
    load_case_scores_page (Loaders.ReadResult.absent) =
      [("Low Battery", ⟨2, 0⟩), ("No Ride Photo", ⟨2, 0⟩),
       ("No Rides Today", ⟨2, 0⟩), ("Not Updating", ⟨3, 0⟩),
       ("Out Of Fence", ⟨3, 0⟩), ("Unlocked Without Ride", ⟨3, 0⟩),
       ("Vehicle Battery Unlocked", ⟨3, 0⟩), ("Vehicle Malfunction", ⟨2, 0⟩),
       ("Active", ⟨0, 0⟩), ("Deactivate", ⟨0, 0⟩)] ∧
    load_case_scores_settings (Loaders.ReadResult.absent) =
      [("Low Battery", 2, 0), ("No Ride Photo", 2, 0),
       ("No Rides Today", 2, 0), ("Not Updating", 3, 0),
       ("Out Of Fence", 3, 0), ("Unlocked Without Ride", 3, 0),
       ("Vehicle Battery Unlocked", 3, 0), ("Vehicle Malfunction", 2, 0),
       ("Active", 0, 0), ("Deactivate", 0, 0)] ∧
    load_case_scores_utils (Loaders.ReadResult.absent) =
      Except.ok [("MOTO", []), ("TRIC", [])] := by
  exact ⟨rfl, rfl, rfl⟩

/-- C3: in the Smart Vehicle Allocation Model, for every nonempty
collection of nonnegative per-neighborhood allocation scores with positive
total and every fleet size of at least 1, the floored proportional counts
plus the one-at-a-time distribution of the flooring remainder to the
highest-scoring neighborhoods sum to exactly the fleet size. -/
theorem C3_allocation_conserves_fleet (scores : List ℚ) (F : ℕ)
    (hne : scores ≠ []) (hnn : ∀ s ∈ scores, 0 ≤ s)
    (hpos : 0 < scores.sum) (hF : 1 ≤ F) :
    (recommendedVehicles scores F).sum = (F : ℤ) := by
  have hS : scores.sum ≠ 0 := ne_of_gt hpos
  have hxsum : (scores.map (fun s => s / scores.sum * (F : ℚ))).sum = F := by
    rw [show (fun s => s / scores.sum * (F : ℚ)) =
        fun s => s * ((F : ℚ) / scores.sum) by funext s; ring]
    rw [sum_map_mul_const scores ((F : ℚ) / scores.sum)]
    field_simp
  have hmaps : allocationFloors scores F =
      (scores.map (fun s => s / scores.sum * (F : ℚ))).map
        (fun x => ⌊x⌋) := by
    rw [allocationFloors, List.map_map]; rfl
  have hcast : ((allocationFloors scores F).sum : ℚ) =
      ((scores.map (fun s => s / scores.sum * (F : ℚ))).map
        (fun x => ((⌊x⌋ : ℤ) : ℚ))).sum := by
    rw [hmaps, Int.cast_list_sum, List.map_map]; rfl
  have hlen : (allocationFloors scores F).length = scores.length := by
    simp [allocationFloors]
  have hfle : (allocationFloors scores F).sum ≤ (F : ℤ) := by
    have h1 : ((allocationFloors scores F).sum : ℚ) ≤ (F : ℚ) := by
      rw [hcast]
      exact le_of_le_of_eq (sum_floor_le _) hxsum
    exact_mod_cast h1
  have hfgt : (F : ℤ) - scores.length < (allocationFloors scores F).sum := by
    have h1 : (F : ℚ) - scores.length <
        ((allocationFloors scores F).sum : ℚ) := by
      rw [hcast]
      have := sum_floor_gt (scores.map (fun s => s / scores.sum * (F : ℚ)))
        (by simpa using hne)
      rwa [hxsum, List.length_map] at this
    exact_mod_cast h1
  rw [recommendedVehicles]
  by_cases hr : 0 < (F : ℤ) - (allocationFloors scores F).sum
  · simp only [hr, if_true, ite_true]
    have hperm : (Py.sortBy
        (fun i j => decide (scores.getD j 0 ≤ scores.getD i 0))
        (List.range scores.length)).Perm (List.range scores.length) :=
      Py.sortBy_perm _ _
    have hsortnd : (Py.sortBy
        (fun i j => decide (scores.getD j 0 ≤ scores.getD i 0))
        (List.range scores.length)).Nodup :=
      hperm.nodup_iff.mpr (List.nodup_range scores.length)
    have hndT : (topIndices scores
        ((F : ℤ) - (allocationFloors scores F).sum).toNat).Nodup := by
      rw [topIndices]
      exact (List.take_sublist _ _).nodup hsortnd
    have hmemT : ∀ j ∈ topIndices scores
        ((F : ℤ) - (allocationFloors scores F).sum).toNat,
        0 ≤ j ∧ j < 0 + (allocationFloors scores F).length := by
      intro j hj
      rw [topIndices] at hj
      have hj2 : j ∈ List.range scores.length :=
        hperm.mem_iff.mp (List.take_subset _ _ hj)
      rw [hlen]
      exact ⟨Nat.zero_le j, by simpa using List.mem_range.mp hj2⟩
    have hlenT : (topIndices scores
        ((F : ℤ) - (allocationFloors scores F).sum).toNat).length =
        ((F : ℤ) - (allocationFloors scores F).sum).toNat := by
      rw [topIndices, List.length_take, hperm.length_eq,
        List.length_range]
      exact min_eq_left (by omega)
    rw [Allocation.bumpFrom_sum, countP_contains_range' 0
      (allocationFloors scores F).length _ hndT hmemT, hlenT]
    omega
  · simp only [hr, if_false, ite_false]
    omega

/-- C3 witness: scores [3, 1, 1] with fleet size 4 — floors [2, 0, 0]
leave a remainder of 2, distributed to the two highest-scoring
neighborhoods for a total of exactly 4. -/
theorem C3_allocation_conserves_fleet_witness :
    (recommendedVehicles [3, 1, 1] 4).sum = (4 : ℤ) :=
  C3_allocation_conserves_fleet [3, 1, 1] 4 (by simp)
    (by intro s hs; fin_cases hs <;> norm_num) (by norm_num) (by norm_num)

end Rabbit
